import Mathlib

/-!
Verification of the OCR core pipeline (`src/core/ocr_engine.cpp`) of the
obsidian-wasm-ocr repository.

The C++ core is shallowly embedded over exact rationals (`ℚ` stands for the
C++ `float`/`double` values; all arithmetic in the embedding is therefore
exact real arithmetic on the same expressions the source computes).  The two
neural networks are black-box collaborators (per the design document) and are
modelled as parameters; everything between them — the greedy CTC decoder, the
3-point affine solver, the inverse-mapped bilinear warp, the oriented-box
normalization / enlargement / remapping / filtering of the region extractor,
and the orchestrator's confidence update and result serialization — is
translated line by line from the source.
-/

namespace WasmOcr

/-- `struct Point` (ocr_engine.h): a float image-plane coordinate. -/
@[ext]
structure Point where
  x : ℚ
  y : ℚ
deriving Repr, DecidableEq

/-- `struct Size` (ocr_engine.h): a float extent. -/
structure Size where
  width : ℚ
  height : ℚ
deriving Repr, DecidableEq

/-- `struct RotatedRect` (ocr_engine.h): center, size, angle in degrees. -/
structure RotatedRect where
  center : Point
  size : Size
  angle : ℚ
deriving Repr, DecidableEq

/-- `struct Character` (ocr_engine.h): a decoded glyph.  In the source `id`
is an `int`, but it is only ever assigned `index - 1` with `index >= 1`, so
`ℕ` is faithful. -/
structure Character where
  id : ℕ
  prob : ℚ
deriving Repr, DecidableEq

/-- `struct Object` (ocr_engine.h): a detected text region. -/
structure Object where
  rrect : RotatedRect
  orientation : ℕ
  prob : ℚ
  text : List Character
deriving Repr, DecidableEq

/-! ## Sequence decoder (OCREngine::recognize_text, lines 725-749)

The recognition network output `out` is a T×K matrix, modelled as a list of
T rows of K scores. -/

/-- The arg-max loop of `recognize_text` (lines 730-738): `index = 0`,
`max_score = -9999`, then for each column `j`, if `score > max_score` take
`(j, score)`.  Ties keep the earlier column (strict `>` in the source). -/
def argmax_row (row : List ℚ) : ℕ × ℚ :=
  let step : ℕ × ℚ × ℕ → ℚ → ℕ × ℚ × ℕ := fun acc score =>
    if score > acc.2.1 then (acc.2.2, score, acc.2.2 + 1)
    else (acc.1, acc.2.1, acc.2.2 + 1)
  let r := row.foldl step (0, -9999, 0)
  (r.1, r.2.1)

/-- The greedy CTC decoding loop of `recognize_text` (lines 727-749) with the
running `last_token` made explicit.  Per row: if `last_token == index`
continue (CTC merge); then `last_token = index`; if `index <= 0` continue
(blank; `index` is a non-negative arg-max position, so `index <= 0` is
`index = 0`); otherwise emit `Character{id = index - 1, prob = max_score}`. -/
def ctc_decode_from (last : ℕ) : List (List ℚ) → List Character
  | [] => []
  | row :: rest =>
    let am := argmax_row row
    if last = am.1 then ctc_decode_from last rest
    else if am.1 = 0 then ctc_decode_from am.1 rest
    else ⟨am.1 - 1, am.2⟩ :: ctc_decode_from am.1 rest

/-- `recognize_text`, decoding part: `last_token` starts at 0 (line 727). -/
def ctc_decode (out : List (List ℚ)) : List Character :=
  ctc_decode_from 0 out

/-- The decoder as worded by the specification (C3): at each timestep take
the arg-max class and score; skip if the index equals the previous
timestep's arg-max (`none` before the first timestep); otherwise skip if the
index is the blank sentinel 0; otherwise emit
`CharacterGlyph{id = index - 1, confidence = score}`. -/
def ctc_decode_claim_from (prev : Option ℕ) : List (List ℚ) → List Character
  | [] => []
  | row :: rest =>
    let am := argmax_row row
    if prev = some am.1 then ctc_decode_claim_from (some am.1) rest
    else if am.1 = 0 then ctc_decode_claim_from (some am.1) rest
    else ⟨am.1 - 1, am.2⟩ :: ctc_decode_claim_from (some am.1) rest

/-- The spec-worded decoder, starting with no previous timestep. -/
def ctc_decode_claim (out : List (List ℚ)) : List Character :=
  ctc_decode_claim_from none out

/-- The id-level collapse of the decoding loop, acting directly on the
sequence of per-timestep arg-max indices (the glyph ids emitted by
`ctc_decode` depend only on this sequence). -/
def collapse_from (last : ℕ) : List ℕ → List ℕ
  | [] => []
  | a :: rest =>
    if last = a then collapse_from last rest
    else if a = 0 then collapse_from a rest
    else (a - 1) :: collapse_from a rest

/-- Id-level collapse with the initial `last_token = 0` of the source. -/
def collapse_ids (s : List ℕ) : List ℕ :=
  collapse_from 0 s

end WasmOcr

namespace WasmOcr

/-! Helper lemmas for the decoder claims. -/

/-- After any processed row, the source loop's `last_token` is exactly the
previous row's arg-max, so threading `some last` through the spec-worded
decoder agrees with the source decoder. -/
theorem ctc_decode_from_eq_claim (rows : List (List ℚ)) :
    ∀ last : ℕ, ctc_decode_from last rows = ctc_decode_claim_from (some last) rows := by
  induction rows with
  | nil => intro last; rfl
  | cons row rest ih =>
    intro last
    simp only [ctc_decode_from, ctc_decode_claim_from, Option.some.injEq]
    by_cases h1 : last = (argmax_row row).1
    · rw [if_pos h1, if_pos h1, ih, h1]
    · rw [if_neg h1, if_neg h1]
      by_cases h2 : (argmax_row row).1 = 0
      · rw [if_pos h2, if_pos h2, ih]
      · rw [if_neg h2, if_neg h2, ih]

/-- The source decoder (initial `last_token = 0`) equals the spec-worded
decoder (no previous timestep): the only initial difference is that a first
row with arg-max 0 is skipped by the merge rule in the source and by the
blank rule in the spec, with identical effect. -/
theorem ctc_decode_eq_claim (out : List (List ℚ)) :
    ctc_decode out = ctc_decode_claim out := by
  unfold ctc_decode ctc_decode_claim
  cases out with
  | nil => rfl
  | cons row rest =>
    simp only [ctc_decode_from, ctc_decode_claim_from]
    by_cases h0 : (argmax_row row).1 = 0
    · simp [h0, ctc_decode_from_eq_claim]
    · have h0a : (0 : ℕ) ≠ (argmax_row row).1 := fun h => h0 h.symm
      simp [h0, h0a, ctc_decode_from_eq_claim]

/-- The glyph ids emitted by the decoder depend only on the per-row arg-max
indices, through `collapse_from`. -/
theorem ctc_decode_from_map_id (rows : List (List ℚ)) :
    ∀ last : ℕ, (ctc_decode_from last rows).map Character.id
      = collapse_from last (rows.map fun r => (argmax_row r).1) := by
  induction rows with
  | nil => intro last; rfl
  | cons row rest ih =>
    intro last
    simp only [ctc_decode_from, List.map_cons, collapse_from]
    by_cases h1 : last = (argmax_row row).1
    · rw [if_pos h1, if_pos h1, ih]
    · rw [if_neg h1, if_neg h1]
      by_cases h2 : (argmax_row row).1 = 0
      · rw [if_pos h2, if_pos h2, ih]
      · rw [if_neg h2, if_neg h2, List.map_cons, ih]

/-- Consecutive repeats of the current `last` token are skipped by the merge
rule. -/
theorem collapse_from_replicate (k : ℕ) (a : ℕ) (rest : List ℕ) :
    collapse_from a (List.replicate k a ++ rest) = collapse_from a rest := by
  induction k with
  | zero => rfl
  | succ n ih => simpa [List.replicate_succ, collapse_from] using ih

/-- Repeat-collapse invariance: repeating every element of the arg-max
sequence `n ≥ 1` times does not change the collapsed id sequence. -/
theorem collapse_from_flatMap_replicate (s : List ℕ) :
    ∀ (last n : ℕ), 1 ≤ n →
      collapse_from last (s.flatMap fun a => List.replicate n a) = collapse_from last s := by
  induction s with
  | nil => intro last n _; rfl
  | cons a rest ih =>
    intro last n hn
    obtain ⟨m, rfl⟩ : ∃ m, n = m + 1 := ⟨n - 1, (Nat.succ_pred_eq_of_pos hn).symm⟩
    have hbind : ((a :: rest).flatMap fun x => List.replicate (m + 1) x)
        = a :: (List.replicate m a ++ rest.flatMap fun x => List.replicate (m + 1) x) := by
      simp [List.replicate_succ]
    rw [hbind]
    simp only [collapse_from]
    by_cases h1 : last = a
    · subst h1
      rw [if_pos rfl, if_pos rfl, collapse_from_replicate, ih last (m + 1) hn]
    · rw [if_neg h1, if_neg h1]
      by_cases h2 : a = 0
      · subst h2
        rw [if_pos rfl, if_pos rfl, collapse_from_replicate, ih 0 (m + 1) hn]
      · rw [if_neg h2, if_neg h2, collapse_from_replicate, ih a (m + 1) hn]

/-- A matrix whose arg-max is 0 at every row decodes to nothing, whatever
the running `last_token` is. -/
theorem ctc_decode_from_all_blank (out : List (List ℚ)) :
    ∀ last : ℕ, (∀ row ∈ out, (argmax_row row).1 = 0) → ctc_decode_from last out = [] := by
  induction out with
  | nil => intro last _; rfl
  | cons row rest ih =>
    intro last h
    have hrow : (argmax_row row).1 = 0 := h row (List.mem_cons_self row rest)
    have hrest : ∀ r ∈ rest, (argmax_row r).1 = 0 := fun r hr => h r (List.mem_cons_of_mem row hr)
    simp only [ctc_decode_from]
    by_cases h1 : last = (argmax_row row).1
    · rw [if_pos h1, ih last hrest]
    · rw [if_neg h1, if_pos hrow, ih (argmax_row row).1 hrest]

/-- C3: the sequence decoder makes one pass over the T×K matrix: per
timestep it takes the arg-max class and its score, skips the timestep if
that index equals the previous timestep's arg-max, otherwise skips it if
the index is the blank sentinel 0, and otherwise emits
`CharacterGlyph{id = index - 1, confidence = score}` in timestep order; in
particular a matrix whose arg-max is class 0 at every timestep decodes to
the empty glyph sequence. -/
theorem ctc_decode_matches_claimed_algorithm :
    (∀ out : List (List ℚ), ctc_decode out = ctc_decode_claim out)
    ∧ (∀ out : List (List ℚ),
        (∀ row ∈ out, (argmax_row row).1 = 0) → ctc_decode out = []) := by
  exact ⟨ctc_decode_eq_claim, fun out h => ctc_decode_from_all_blank out 0 h⟩

/-- Witness for C3 at a concrete all-blank matrix (arg-max of both rows is
column 0). -/
theorem ctc_decode_matches_claimed_algorithm_witness :
    ctc_decode [[5, 1], [3, 2]] = [] :=
  ctc_decode_matches_claimed_algorithm.2 [[5, 1], [3, 2]] (by decide)

/-- C4: decoding an arg-max timestep sequence in which every element is
repeated `n ≥ 1` consecutive times yields the same glyph id sequence as
decoding the original sequence; the arg-max sequence
`[0,0,3,3,3,0,5,5,0,0]` (blank class 0) decodes to glyph ids `[2,4]`; and
the glyph ids emitted by the source decoder are exactly the collapse of the
per-row arg-max indices. -/
theorem ctc_repeat_collapse_invariant :
    (∀ (s : List ℕ) (n : ℕ), 1 ≤ n →
        collapse_ids (s.flatMap fun a => List.replicate n a) = collapse_ids s)
    ∧ collapse_ids [0, 0, 3, 3, 3, 0, 5, 5, 0, 0] = [2, 4]
    ∧ (∀ out : List (List ℚ),
        (ctc_decode out).map Character.id
          = collapse_ids (out.map fun r => (argmax_row r).1)) := by
  exact ⟨fun s n hn => collapse_from_flatMap_replicate s 0 n hn, by decide,
    fun out => ctc_decode_from_map_id out 0⟩

/-- Witness for C4: the arg-max sequence `[0,3,5]` with every element
repeated twice collapses to the same ids as `[0,3,5]` itself. -/
theorem ctc_repeat_collapse_invariant_witness :
    collapse_ids ([0, 3, 5].flatMap fun a => List.replicate 2 a) = collapse_ids [0, 3, 5] :=
  ctc_repeat_collapse_invariant.1 [0, 3, 5] 2 (by decide)

/-! ## Geometry primitives: 3-point affine solver
(`get_affine_transform`, ocr_engine.cpp lines 80-130) -/

/-- `struct Matrix2x3` (line 76): the six affine coefficients
`m00 m01 m02 m10 m11 m12`, mapping `(x,y) ↦ (m0·x+m1·y+m2, m3·x+m4·y+m5)`. -/
structure Matrix2x3 where
  m0 : ℚ
  m1 : ℚ
  m2 : ℚ
  m3 : ℚ
  m4 : ℚ
  m5 : ℚ
deriving Repr, DecidableEq

/-- The identity fallback matrix of `get_affine_transform` (lines 100-105). -/
def identity_affine : Matrix2x3 := ⟨1, 0, 0, 0, 1, 0⟩

/-- The determinant of the 3-point system, computed at line 95 (`det`) and
again, identically, at line 119 (`A`):
`x1·(y2−y3) − y1·(x2−x3) + (x2·y3 − x3·y2)`. -/
def affine_det (src : Fin 3 → Point) : ℚ :=
  (src 0).x * ((src 1).y - (src 2).y) - (src 0).y * ((src 1).x - (src 2).x)
    + ((src 1).x * (src 2).y - (src 2).x * (src 1).y)

/-- `get_affine_transform` (lines 80-130): solves the affine map taking the
3 source points to the 3 destination points by Cramer's rule; if
`|det| < 1e-6` it returns the identity matrix instead.  (The dead
assignment to `m[0]` at lines 111-112 is overwritten at line 121 and has no
effect.) -/
def get_affine_transform (src dst : Fin 3 → Point) : Matrix2x3 :=
  let x1 := (src 0).x
  let y1 := (src 0).y
  let X1 := (dst 0).x
  let Y1 := (dst 0).y
  let x2 := (src 1).x
  let y2 := (src 1).y
  let X2 := (dst 1).x
  let Y2 := (dst 1).y
  let x3 := (src 2).x
  let y3 := (src 2).y
  let X3 := (dst 2).x
  let Y3 := (dst 2).y
  if |affine_det src| < 1e-6 then identity_affine
  else
    let A := affine_det src
    ⟨(X1 * (y2 - y3) - y1 * (X2 - X3) + X2 * y3 - X3 * y2) / A,
      (x1 * (X2 - X3) - X1 * (x2 - x3) + x2 * X3 - x3 * X2) / A,
      (x1 * (y2 * X3 - y3 * X2) - y1 * (x2 * X3 - x3 * X2) + X1 * (x2 * y3 - x3 * y2)) / A,
      (Y1 * (y2 - y3) - y1 * (Y2 - Y3) + Y2 * y3 - Y3 * y2) / A,
      (x1 * (Y2 - Y3) - Y1 * (x2 - x3) + x2 * Y3 - x3 * Y2) / A,
      (x1 * (y2 * Y3 - y3 * Y2) - y1 * (x2 * Y3 - x3 * Y2) + Y1 * (x2 * y3 - x3 * y2)) / A⟩

/-- The affine action `(x,y) ↦ (a·x+b·y+c, d·x+e·y+f)` (spec §3,
AffineTransform; used by `warp_affine_bilinear` via its inverse). -/
def apply_affine (M : Matrix2x3) (p : Point) : Point :=
  ⟨M.m0 * p.x + M.m1 * p.y + M.m2, M.m3 * p.x + M.m4 * p.y + M.m5⟩

/-- C7: whenever the 3-point correspondence is degenerate
(`|A| < 1e-6`), `get_affine_transform` returns the identity transform
`(1,0,0,0,1,0)`; no error and (over the exact rationals of this embedding)
no NaN/Inf coefficient can arise. -/
theorem affine_degenerate_identity_fallback (src dst : Fin 3 → Point)
    (h : |affine_det src| < 1e-6) :
    get_affine_transform src dst = identity_affine := by
  simp only [get_affine_transform]
  rw [if_pos h]

/-- Witness for C7: a fully collapsed source triple has determinant 0. -/
theorem affine_degenerate_identity_fallback_witness :
    |affine_det ![⟨0, 0⟩, ⟨0, 0⟩, ⟨0, 0⟩]| < 1e-6
      ∧ get_affine_transform ![⟨0, 0⟩, ⟨0, 0⟩, ⟨0, 0⟩] ![⟨0, 0⟩, ⟨1, 0⟩, ⟨0, 1⟩]
        = identity_affine :=
  ⟨by norm_num [affine_det],
    affine_degenerate_identity_fallback _ _ (by norm_num [affine_det])⟩

/-- C8: for every non-degenerate 3-point correspondence (`|A| ≥ 1e-6`),
applying the transform returned by `get_affine_transform` to each of the 3
source points reproduces the corresponding destination point — exactly,
over the rationals of this embedding (hence a fortiori within
floating-point tolerance). -/
theorem affine_solve_round_trip (src dst : Fin 3 → Point)
    (h : 1e-6 ≤ |affine_det src|) :
    apply_affine (get_affine_transform src dst) (src 0) = dst 0
      ∧ apply_affine (get_affine_transform src dst) (src 1) = dst 1
      ∧ apply_affine (get_affine_transform src dst) (src 2) = dst 2 := by
  have hd : ¬ |affine_det src| < 1e-6 := not_lt.mpr h
  have hA : affine_det src ≠ 0 := by
    intro h0
    rw [h0, abs_zero] at h
    norm_num at h
  simp only [get_affine_transform, apply_affine]
  rw [if_neg hd]
  unfold affine_det at hA
  unfold affine_det
  refine ⟨?_, ?_, ?_⟩ <;>
    (apply Point.ext <;> (field_simp; ring))

/-- Witness for C8: a concrete non-degenerate correspondence (determinant
1) round-trips its three points. -/
theorem affine_solve_round_trip_witness :
    (1e-6 : ℚ) ≤ |affine_det ![⟨0, 0⟩, ⟨1, 0⟩, ⟨0, 1⟩]|
      ∧ apply_affine
          (get_affine_transform ![⟨0, 0⟩, ⟨1, 0⟩, ⟨0, 1⟩] ![⟨2, 3⟩, ⟨5, 7⟩, ⟨11, 13⟩])
          ((![⟨0, 0⟩, ⟨1, 0⟩, ⟨0, 1⟩] : Fin 3 → Point) 0)
        = (![⟨2, 3⟩, ⟨5, 7⟩, ⟨11, 13⟩] : Fin 3 → Point) 0 :=
  ⟨by norm_num [affine_det],
    (affine_solve_round_trip _ _ (by norm_num [affine_det])).1⟩

/-! ## Region extractor: per-contour box processing
(`OCREngine::detect_text` postprocessing, ocr_engine.cpp lines 542-625) -/

/-- Orientation as worded by the specification; the source encodes it as
the int `orientation` with 0 = horizontal, 1 = vertical. -/
inductive Orientation where
  | Horizontal
  | Vertical
deriving Repr, DecidableEq

/-- Orientation classification and angle normalization (lines 562-588),
statement by statement: `orientation` starts at 0, two tests may set it to
1; then three sequential conditional adjustments of the box, each reading
the angle as already updated by the previous one. -/
def normalize_box (r0 : RotatedRect) : ℕ × RotatedRect :=
  let o1 : ℕ :=
    if -30 ≤ r0.angle ∧ r0.angle ≤ 30 ∧ r0.size.height > r0.size.width * 2.7 then 1 else 0
  let o2 : ℕ :=
    if (r0.angle ≤ -60 ∨ 60 ≤ r0.angle) ∧ r0.size.width > r0.size.height * 2.7 then 1 else o1
  let r1 := if r0.angle < -30 then { r0 with angle := r0.angle + 180 } else r0
  let r2 :=
    if o2 = 0 ∧ r1.angle < 30 then
      { r1 with angle := r1.angle + 90, size := ⟨r1.size.height, r1.size.width⟩ }
    else r1
  let r3 :=
    if o2 = 1 ∧ 60 ≤ r2.angle then
      { r2 with angle := r2.angle - 90, size := ⟨r2.size.height, r2.size.width⟩ }
    else r2
  (o2, r3)

/-- The orientation classification as worded by claim C5: Vertical iff
(angle in [−30°,30°] and height > 2.7×width) or (angle ≤ −60° or ≥ 60°,
and width > 2.7×height); otherwise Horizontal. -/
def classify_claim (r : RotatedRect) : Orientation :=
  if (-30 ≤ r.angle ∧ r.angle ≤ 30 ∧ r.size.height > 2.7 * r.size.width)
      ∨ ((r.angle ≤ -60 ∨ 60 ≤ r.angle) ∧ r.size.width > 2.7 * r.size.height)
  then Orientation.Vertical else Orientation.Horizontal

/-- The normalization sequence as worded by claim C5: classify first; then
if angle < −30 add 180; then if Horizontal and angle < 30 add 90 and swap
width/height; then if Vertical and angle ≥ 60 subtract 90 and swap. -/
def normalize_box_claim (r0 : RotatedRect) : Orientation × RotatedRect :=
  let o := classify_claim r0
  let r1 := if r0.angle < -30 then { r0 with angle := r0.angle + 180 } else r0
  let r2 :=
    if o = Orientation.Horizontal ∧ r1.angle < 30 then
      { r1 with angle := r1.angle + 90, size := ⟨r1.size.height, r1.size.width⟩ }
    else r1
  let r3 :=
    if o = Orientation.Vertical ∧ 60 ≤ r2.angle then
      { r2 with angle := r2.angle - 90, size := ⟨r2.size.height, r2.size.width⟩ }
    else r2
  (o, r3)

/-- C5: the source's orientation/angle normalization agrees exactly with
the claim's description — the box is classified Vertical under the claimed
disjunction (otherwise Horizontal), and the three angle adjustments are
applied in the claimed order with the claimed thresholds. -/
theorem box_orientation_normalization_matches_spec (r : RotatedRect) :
    ((normalize_box r).1 = 1 ↔ (normalize_box_claim r).1 = Orientation.Vertical)
      ∧ (normalize_box r).2 = (normalize_box_claim r).2 := by
  have hm1 : r.size.width * 2.7 = 2.7 * r.size.width := mul_comm _ _
  have hm2 : r.size.height * 2.7 = 2.7 * r.size.height := mul_comm _ _
  simp only [normalize_box, normalize_box_claim, classify_claim, hm1, hm2]
  by_cases hA : -30 ≤ r.angle ∧ r.angle ≤ 30 ∧ r.size.height > 2.7 * r.size.width <;>
    by_cases hB : (r.angle ≤ -60 ∨ 60 ≤ r.angle) ∧ r.size.width > 2.7 * r.size.height <;>
    simp [hA, hB]

/-- Box enlargement (lines 591-592): the height grows by
`width · (ratio − 1)` first — using the pre-enlargement width — and then
the width scales by the fixed ratio 1.95. -/
def enlarge_box (r : RotatedRect) : RotatedRect :=
  { r with size := ⟨r.size.width * 1.95, r.size.height + r.size.width * (1.95 - 1)⟩ }

/-- Remapping to original-image coordinates (lines 595-598): undo the
symmetric padding and the resize scale of preprocessing. -/
def remap_box (r : RotatedRect) (scale : ℚ) (wpad hpad : ℤ) : RotatedRect :=
  { center := ⟨(r.center.x - (wpad : ℚ) / 2) / scale, (r.center.y - (hpad : ℚ) / 2) / scale⟩
    size := ⟨r.size.width / scale, r.size.height / scale⟩
    angle := r.angle }

/-- The degenerate-box rejection (lines 601-618): keep the box only when
both dimensions are ≥ 1.0 pixel and the epsilon-guarded aspect ratio
`height / (width + 1e-6)` lies within `[1/120, 120]`. -/
def box_filter (r : RotatedRect) : Bool :=
  if r.size.width < 1 ∨ r.size.height < 1 then false
  else if r.size.height / (r.size.width + 1e-6) > 120
      ∨ r.size.height / (r.size.width + 1e-6) < 1 / 120 then false
  else true

/-- Per-contour processing of `detect_text` (lines 547-625), given the
normalized contour score (`calculate_contour_score(...) / 255`, line 550)
and the PCA-fitted box: apply the box-score threshold 0.6 (line 552), the
minimum-size filter `3 · scale` on the fitted box (lines 545, 558-559),
orientation normalization, enlargement, remapping, and the degenerate-box
filters; emit an `Object` with empty `text` (lines 620-624) or discard. -/
def process_contour (score : ℚ) (r0 : RotatedRect) (scale : ℚ) (wpad hpad : ℤ) :
    Option Object :=
  if score < 0.6 then none
  else if max r0.size.width r0.size.height < 3 * scale then none
  else
    let p := normalize_box r0
    let r3 := remap_box (enlarge_box p.2) scale wpad hpad
    if box_filter r3 then some ⟨r3, p.1, score, []⟩ else none

/-- A fitted box whose larger dimension is below `3 · scale` never produces
an `Object`. -/
theorem process_contour_min_size (score : ℚ) (r0 : RotatedRect) (scale : ℚ)
    (wpad hpad : ℤ) (h : max r0.size.width r0.size.height < 3 * scale) :
    process_contour score r0 scale wpad hpad = none := by
  simp only [process_contour]
  split_ifs with h1
  · rfl
  · rfl

/-- Every emitted `Object` carries the remapped box, which passed
`box_filter`. -/
theorem process_contour_filtered (score : ℚ) (r0 : RotatedRect) (scale : ℚ)
    (wpad hpad : ℤ) (obj : Object)
    (h : process_contour score r0 scale wpad hpad = some obj) :
    box_filter obj.rrect = true := by
  simp only [process_contour] at h
  split_ifs at h with h1 h2 h3
  · cases h
    exact h3

/-- C10: beyond the filters stated in the spec, the region extractor
discards any component whose fitted box — before orientation
normalization and enlargement — has `max(width, height) < 3 · scale`;
consequently every emitted region's pre-enlargement fitted box had
`max(width, height) ≥ 3 · scale`. -/
theorem min_size_filter_pre_normalization :
    (∀ (score : ℚ) (r0 : RotatedRect) (scale : ℚ) (wpad hpad : ℤ),
        max r0.size.width r0.size.height < 3 * scale →
          process_contour score r0 scale wpad hpad = none)
      ∧ ∀ (score : ℚ) (r0 : RotatedRect) (scale : ℚ) (wpad hpad : ℤ) (obj : Object),
          process_contour score r0 scale wpad hpad = some obj →
            3 * scale ≤ max r0.size.width r0.size.height := by
  refine ⟨process_contour_min_size, ?_⟩
  intro score r0 scale wpad hpad obj hsome
  by_contra hlt
  push_neg at hlt
  rw [process_contour_min_size score r0 scale wpad hpad hlt] at hsome
  exact Option.noConfusion hsome

/-- Witness for C10: a 1×1 fitted box at detection scale 10 (minimum size
30) is discarded. -/
theorem min_size_filter_pre_normalization_witness :
    process_contour 0.9 ⟨⟨0, 0⟩, ⟨1, 1⟩, 0⟩ 10 0 0 = none :=
  min_size_filter_pre_normalization.1 0.9 ⟨⟨0, 0⟩, ⟨1, 1⟩, 0⟩ 10 0 0 (by norm_num)

/-- The exact characterization of rejection by `box_filter`: a box is
discarded iff a dimension is `< 1`, or the epsilon-guarded ratio
`height / (width + 1e-6)` leaves `[1/120, 120]`. -/
theorem box_filter_eq_false_iff (r : RotatedRect) :
    box_filter r = false ↔
      (r.size.width < 1 ∨ r.size.height < 1
        ∨ 120 < r.size.height / (r.size.width + 1e-6)
        ∨ r.size.height / (r.size.width + 1e-6) < 1 / 120) := by
  simp only [box_filter]
  split_ifs with h1 h2 <;> simp_all <;> tauto

/-- A box with `height = 200 · width` is always rejected: either a
dimension is below 1 pixel, or the guarded ratio exceeds 120. -/
theorem box_filter_ratio_200 (r : RotatedRect) (h : r.size.height = 200 * r.size.width) :
    box_filter r = false := by
  unfold box_filter
  by_cases h1 : r.size.width < 1 ∨ r.size.height < 1
  · rw [if_pos h1]
  · rw [if_neg h1]
    push_neg at h1
    obtain ⟨hw, _⟩ := h1
    have hpos : (0 : ℚ) < r.size.width + 1e-6 := by linarith
    have hgt : 120 < r.size.height / (r.size.width + 1e-6) := by
      rw [lt_div_iff hpos, h]
      linarith
    rw [if_pos (Or.inl hgt)]

/-- A box with `width ≥ 1` and `height = 100 · width` passes the filter:
both dimensions are ≥ 1 and the guarded ratio stays inside `[1/120, 120]`. -/
theorem box_filter_ratio_100 (r : RotatedRect) (hw : 1 ≤ r.size.width)
    (h : r.size.height = 100 * r.size.width) :
    box_filter r = true := by
  unfold box_filter
  have hh : (1 : ℚ) ≤ r.size.height := by rw [h]; linarith
  have h1 : ¬(r.size.width < 1 ∨ r.size.height < 1) := by
    push_neg
    exact ⟨hw, hh⟩
  rw [if_neg h1]
  have hpos : (0 : ℚ) < r.size.width + 1e-6 := by linarith
  have h2 : ¬(r.size.height / (r.size.width + 1e-6) > 120
      ∨ r.size.height / (r.size.width + 1e-6) < 1 / 120) := by
    push_neg
    constructor
    · rw [div_le_iff hpos, h]
      linarith
    · rw [le_div_iff hpos, h]
      linarith
  rw [if_neg h2]

/-- C6 (amended): after enlargement and remapping a box is discarded iff
either dimension is `< 1.0` pixel or the code's epsilon-guarded aspect
ratio `height / (width + 1e-6)` exceeds 120 or falls below 1/120 (the
claim's plain `height/width` ratio differs from this at the 120 boundary);
a box with `height/width = 200` is always rejected, a box with ratio 100
(width ≥ 1) is accepted, and every emitted region passed the filter, so a
discarded box never reaches the ROI rectifier. -/
theorem degenerate_box_rejection :
    (∀ r : RotatedRect, box_filter r = false ↔
        (r.size.width < 1 ∨ r.size.height < 1
          ∨ 120 < r.size.height / (r.size.width + 1e-6)
          ∨ r.size.height / (r.size.width + 1e-6) < 1 / 120))
      ∧ (∀ r : RotatedRect, r.size.height = 200 * r.size.width → box_filter r = false)
      ∧ (∀ r : RotatedRect, 1 ≤ r.size.width → r.size.height = 100 * r.size.width →
          box_filter r = true)
      ∧ ∀ (score : ℚ) (r0 : RotatedRect) (scale : ℚ) (wpad hpad : ℤ) (obj : Object),
          process_contour score r0 scale wpad hpad = some obj →
            box_filter obj.rrect = true :=
  ⟨box_filter_eq_false_iff, box_filter_ratio_200, box_filter_ratio_100,
    process_contour_filtered⟩

/-- Witness for C6: a 1×200 box is rejected, a 1×100 box is accepted. -/
theorem degenerate_box_rejection_witness :
    box_filter ⟨⟨0, 0⟩, ⟨1, 200⟩, 0⟩ = false ∧ box_filter ⟨⟨0, 0⟩, ⟨1, 100⟩, 0⟩ = true :=
  ⟨degenerate_box_rejection.2.1 _ (by norm_num),
    degenerate_box_rejection.2.2.1 _ (by norm_num) (by norm_num)⟩

/-- C6 counterexample: the claim's unguarded reading fails at the 120
boundary.  This fitted box survives the whole per-contour pipeline — the
guarded ratio `(2400001/20000) / (1 + 1e-6)` is just below 120 — although
the emitted box's plain height/width ratio `120.00005` exceeds 120, so the
claim "discarded if the height/width ratio exceeds 120:1" is false on the
code. -/
theorem degenerate_box_rejection_counterexample :
    process_contour 0.9 ⟨⟨0, 0⟩, ⟨20/39, 93220039/780000⟩, 45⟩ 1 0 0
      = some ⟨⟨⟨0, 0⟩, ⟨1, 2400001/20000⟩, 45⟩, 0, 0.9, []⟩
      ∧ (120 : ℚ) < (2400001/20000) / 1 := by
  constructor
  · norm_num [process_contour, normalize_box, enlarge_box, remap_box, box_filter]
  · norm_num

/-! ## Geometry primitives: inverse-mapped bilinear warp
(`warp_affine_bilinear`, ocr_engine.cpp lines 132-220)

The planar float image is modelled as a function `channel → row → column →
value`; only the warp's own arithmetic is embedded, per destination pixel. -/

/-- C's `(int)` cast of a float (line 176-177): truncation toward zero. -/
def ratTrunc (q : ℚ) : ℤ :=
  if 0 ≤ q then ⌊q⌋ else ⌈q⌉

/-- `std::max(lo, std::min(v, hi))` clamping (lines 196-199). -/
def clampZ (v lo hi : ℤ) : ℤ :=
  max lo (min v hi)

/-- The per-pixel bilinear sample (lines 174-212): truncate the source
coordinates, and either take the in-range fast path (the truncated cell
`[x0, x0+1] × [y0, y0+1]` lies fully inside the image; the source tests
this with unsigned comparisons `(unsigned)x0 < (unsigned)(src_w - 1)`,
equivalent over ℤ to `0 ≤ x0 ∧ x0 < src_w - 1` for a nonempty image) or
the boundary path, which clamps each of the four tap indices per axis; the
interpolation weights `u, v` use the unclamped truncation in both paths. -/
def sample_bilinear (plane : ℕ → ℕ → ℚ) (src_w src_h : ℕ) (sx sy : ℚ) : ℚ :=
  let x0 := ratTrunc sx
  let y0 := ratTrunc sy
  let u := sx - (x0 : ℚ)
  let v := sy - (y0 : ℚ)
  if 0 ≤ x0 ∧ x0 < (src_w : ℤ) - 1 ∧ 0 ≤ y0 ∧ y0 < (src_h : ℤ) - 1 then
    let v00 := plane y0.toNat x0.toNat
    let v01 := plane y0.toNat (x0.toNat + 1)
    let v10 := plane (y0.toNat + 1) x0.toNat
    let v11 := plane (y0.toNat + 1) (x0.toNat + 1)
    v00 * (1 - u) * (1 - v) + v01 * u * (1 - v) + v10 * (1 - u) * v + v11 * u * v
  else
    let x0c := (clampZ x0 0 ((src_w : ℤ) - 1)).toNat
    let y0c := (clampZ y0 0 ((src_h : ℤ) - 1)).toNat
    let x1c := (clampZ (x0 + 1) 0 ((src_w : ℤ) - 1)).toNat
    let y1c := (clampZ (y0 + 1) 0 ((src_h : ℤ) - 1)).toNat
    let v00 := plane y0c x0c
    let v01 := plane y0c x1c
    let v10 := plane y1c x0c
    let v11 := plane y1c x1c
    v00 * (1 - u) * (1 - v) + v01 * u * (1 - v) + v10 * (1 - u) * v + v11 * u * v

/-- `warp_affine_bilinear` (lines 132-220): invert the affine matrix
(returning with the destination unwritten — modelled as `none` — when
`|D| < 1e-6`), then for every destination pixel back-project
`sx = dx·iM0 + dy·iM1 + iM2`, `sy = dx·iM3 + dy·iM4 + iM5` (the source
computes this as a per-row start plus a constant per-pixel step, lines
154-159 and 214-216, which over exact arithmetic is the same affine
expression) and sample bilinearly. -/
def warp_affine_bilinear (src : ℕ → ℕ → ℕ → ℚ) (src_w src_h : ℕ) (M : Matrix2x3)
    (dst_w dst_h : ℕ) : Option (ℕ → ℕ → ℕ → ℚ) :=
  let D := M.m0 * M.m4 - M.m1 * M.m3
  if |D| < 1e-6 then none
  else
    let invD := 1 / D
    let iM0 := M.m4 * invD
    let iM1 := -M.m1 * invD
    let iM2 := (M.m1 * M.m5 - M.m2 * M.m4) * invD
    let iM3 := -M.m3 * invD
    let iM4 := M.m0 * invD
    let iM5 := (M.m2 * M.m3 - M.m0 * M.m5) * invD
    some fun c dy dx =>
      let sx := (dy : ℚ) * iM1 + iM2 + (dx : ℚ) * iM0
      let sy := (dy : ℚ) * iM4 + iM5 + (dx : ℚ) * iM3
      sample_bilinear (src c) src_w src_h sx sy

/-- Truncation of a nonnegative integer-valued rational is exact. -/
theorem ratTrunc_natCast (n : ℕ) : ratTrunc (n : ℚ) = n := by
  unfold ratTrunc
  rw [if_pos (by positivity), Int.floor_natCast]

/-- Sampling at exact integer coordinates inside the image returns the
pixel itself, in the fast path and the clamped path alike. -/
theorem sample_bilinear_natCast (plane : ℕ → ℕ → ℚ) (src_w src_h dx dy : ℕ)
    (hdx : dx < src_w) (hdy : dy < src_h) :
    sample_bilinear plane src_w src_h (dx : ℚ) (dy : ℚ) = plane dy dx := by
  simp only [sample_bilinear, ratTrunc_natCast]
  have hu : (dx : ℚ) - ((dx : ℤ) : ℚ) = 0 := by push_cast; ring
  have hv : (dy : ℚ) - ((dy : ℤ) : ℚ) = 0 := by push_cast; ring
  rw [hu, hv]
  by_cases hc : 0 ≤ (dx : ℤ) ∧ (dx : ℤ) < (src_w : ℤ) - 1
      ∧ 0 ≤ (dy : ℤ) ∧ (dy : ℤ) < (src_h : ℤ) - 1
  · rw [if_pos hc]
    simp [Int.toNat_natCast]
  · rw [if_neg hc]
    have hx : clampZ (dx : ℤ) 0 ((src_w : ℤ) - 1) = (dx : ℤ) := by
      unfold clampZ
      omega
    have hy : clampZ (dy : ℤ) 0 ((src_h : ℤ) - 1) = (dy : ℤ) := by
      unfold clampZ
      omega
    rw [hx, hy]
    simp [Int.toNat_natCast]

/-- C9: warping any source image with the identity affine transform, to
destination dimensions equal to the source dimensions, succeeds and
reproduces the source image exactly at every pixel of every channel. -/
theorem warp_identity_reproduces_source (src : ℕ → ℕ → ℕ → ℚ) (w h c dy dx : ℕ)
    (hdy : dy < h) (hdx : dx < w) :
    (warp_affine_bilinear src w h identity_affine w h).map (fun g => g c dy dx)
      = some (src c dy dx) := by
  simp only [warp_affine_bilinear, identity_affine]
  rw [if_neg (by norm_num)]
  simp only [Option.map_some']
  norm_num
  rw [sample_bilinear_natCast (src c) w h dx dy hdx hdy]

/-- Witness for C9 on a concrete 2×2 image. -/
theorem warp_identity_reproduces_source_witness :
    (warp_affine_bilinear (fun ch y x => (ch : ℚ) + 10 * y + 100 * x) 2 2
        identity_affine 2 2).map (fun g => g 0 1 1)
      = some ((fun ch y x => (ch : ℚ) + 10 * y + 100 * x) 0 1 1) :=
  warp_identity_reproduces_source _ 2 2 0 1 1 (by norm_num) (by norm_num)

/-! ## Pipeline orchestrator (`OCREngine::detect`, ocr_engine.cpp lines 753-844)

The detection stage (`detect_text`: preprocessing, the detection network,
and the connected-component scan whose per-contour tail is
`process_contour` above) and the per-region recognition network are
black-box collaborators at this level: `regions` stands for the object
list `detect_text` produced (each with empty `text`), and `rec_out i` for
the recognition network's T×K output matrix on region `i`'s rectified
strip, which `ctc_decode` then decodes. -/

/-- The per-region confidence update of the orchestrator loop
(lines 774-786): sum the decoded glyph confidences and count them; if at
least one glyph was produced, overwrite `prob` with `sum / count`,
otherwise keep the detection score. -/
def update_confidence (obj : Object) : Object :=
  let sum_prob := (obj.text.map Character.prob).sum
  let count := obj.text.length
  if 0 < count then { obj with prob := sum_prob / count } else obj

/-- One iteration of the recognition loop (lines 771-786) on the `i`-th
region: `recognize_text` appends the decoded glyphs to the region's
`text` (line 748), then the confidence update runs. -/
def run_region (rec_out : ℕ → List (List ℚ)) (p : ℕ × Object) : Object :=
  update_confidence { p.2 with text := p.2.text ++ ctc_decode (rec_out p.1) }

/-- The serialization loop (lines 794-840): a bracketed, comma-separated
list of the entries of the regions whose final confidence clears the
acceptance threshold (line 799), in discovery order.  Rendering one entry
(the 4 corner points via `RotatedRect::points`, the escaped
dictionary-resolved text, the probability — lines 802-838) involves the
platform's float-to-text formatting and the trigonometric corner
computation, and is abstracted as the parameter `render`; the claims below
depend only on the bracket/comma/filter skeleton. -/
def serialize_objects (render : Object → String) (threshold : ℚ) (objs : List Object) :
    String :=
  let step : String × Bool → Object → String × Bool := fun acc obj =>
    if obj.prob < threshold then acc
    else ((if acc.2 then acc.1 else acc.1 ++ ",") ++ render obj, false)
  let r := objs.foldl step ("[", true)
  r.1 ++ "]"

/-- `OCREngine::detect` (lines 753-844): the invalid-input guard at line
756 returns the fixed string `"{}"` before any other work; otherwise each
region found by the detection stage is recognized, decoded and
confidence-updated in order, and the surviving regions are serialized. -/
def detect (regions : List Object) (rec_out : ℕ → List (List ℚ))
    (render : Object → String) (threshold : ℚ)
    (width height : ℤ) (rgba_is_null : Bool) : String :=
  if width ≤ 0 ∨ height ≤ 0 ∨ rgba_is_null = true then "\x7b\x7d"
  else serialize_objects render threshold (regions.enum.map (run_region rec_out))

/-- C2: in the orchestrator loop, a region whose decoder output is
nonempty gets final confidence exactly the arithmetic mean of the glyph
confidences, a region with no glyphs keeps its detection score, and glyph
confidences [0.9, 0.8, 0.7] over detection confidence 0.5 yield exactly
0.8. -/
theorem confidence_overwrite_mean (i : ℕ) (obj : Object) (rec_out : ℕ → List (List ℚ))
    (hinit : obj.text = []) :
    (ctc_decode (rec_out i) ≠ [] →
        (run_region rec_out (i, obj)).prob
          = ((ctc_decode (rec_out i)).map Character.prob).sum
              / (ctc_decode (rec_out i)).length)
      ∧ (ctc_decode (rec_out i) = [] → (run_region rec_out (i, obj)).prob = obj.prob)
      ∧ (run_region (fun _ => [[0, 0.9], [0, 0, 0.8], [0, 0, 0, 0.7]])
          (0, ⟨⟨⟨0, 0⟩, ⟨1, 1⟩, 0⟩, 0, 0.5, []⟩)).prob = 0.8 := by
  refine ⟨?_, ?_, ?_⟩
  · intro hne
    simp only [run_region, update_confidence, hinit, List.nil_append]
    rw [if_pos (List.length_pos.mpr hne)]
  · intro he
    simp only [run_region, update_confidence, hinit, he, List.nil_append, List.length_nil,
      lt_self_iff_false, if_false]
  · norm_num [run_region, update_confidence, ctc_decode, ctc_decode_from, argmax_row]

/-- Witness for C2: the concrete [0.9, 0.8, 0.7] region evaluates to mean
confidence 0.8. -/
theorem confidence_overwrite_mean_witness :
    (run_region (fun _ => [[0, 0.9], [0, 0, 0.8], [0, 0, 0, 0.7]])
        (0, ⟨⟨⟨0, 0⟩, ⟨1, 1⟩, 0⟩, 0, 0.5, []⟩)).prob = 0.8 :=
  (confidence_overwrite_mean 0 ⟨⟨⟨0, 0⟩, ⟨1, 1⟩, 0⟩, 0, 0.5, []⟩ (fun _ => []) rfl).2.2

/-- C1 (amended): whenever width ≤ 0, height ≤ 0, or the pixel data is
null, `detect` returns the fixed two-character string `"{}"` immediately
and without raising any error; note this empty-object sentinel differs
from the serialization of zero regions, which is `"[]"`. -/
theorem invalid_input_empty_result (regions : List Object) (rec_out : ℕ → List (List ℚ))
    (render : Object → String) (threshold : ℚ) (width height : ℤ) (null : Bool)
    (h : width ≤ 0 ∨ height ≤ 0 ∨ null = true) :
    detect regions rec_out render threshold width height null = "\x7b\x7d" := by
  unfold detect
  rw [if_pos h]

/-- Witness for C1 at width 0. -/
theorem invalid_input_empty_result_witness :
    detect [] (fun _ => []) (fun _ => "") 0.5 0 10 false = "\x7b\x7d" :=
  invalid_input_empty_result [] (fun _ => []) (fun _ => "") 0.5 0 10 false (Or.inl le_rfl)

/-- C1 counterexample: on invalid input (width 0) `detect` returns `"{}"`,
while the serialization of zero regions is `"[]"`, and the two differ — so
the invalid-input return is not "the serialization of zero regions" as the
claim states. -/
theorem invalid_input_empty_result_counterexample :
    detect [] (fun _ => []) (fun _ => "") 0.5 0 10 false = "\x7b\x7d"
      ∧ serialize_objects (fun _ => "") 0.5 [] = "[]"
      ∧ ("\x7b\x7d" : String) ≠ "[]" := by
  refine ⟨?_, rfl, by decide⟩
  unfold detect
  rw [if_pos (Or.inl le_rfl)]

end WasmOcr
